import Mathlib

/-!
# Shallow embedding of the sparrownet shell-stack command-dispatch core

This file embeds, in Lean 4, the shell-stack terminal core of the
`nirradi/sparrownet` repository:

* the terminal reducer (the `PUSH_SHELL`/`POP_SHELL` version of
  `terminal`), a pure state-transition function over five action kinds;
* the action creators of `src/gamestate/terminalActions.js`;
* the command engine of `src/gamestate/commandEngine.js`
  (`runCommand`, `showHelp`, `sendToOutput`, `pushShell`, `popShell`,
  `start`);
* the `mailbox` command-table builder and the `chapter1` data.

JavaScript machine details are made explicit:

* a thrown `TypeError` (reading a property of `undefined`) is modelled by
  `Option`: `none` is a crash;
* `Array.concat` with a string argument appends one element;
* `command.split(' ')` is modelled character-structurally by `splitChars`
  (JS `split` on a single-character separator);
* the mutable `mails` closure of the mailbox builder is modelled by
  explicit `Mails` state passing;
* the engine's dispatch of a handler,
  `setTimeout((availableCommands[command].func.bind(commandEngine))(fullCommand), 1)`,
  evaluates its first argument immediately: the handler runs synchronously
  inside `runCommand` and `setTimeout` receives the handler's return value
  (`undefined`).  The embedding therefore applies the handler's effects
  inside `runCommand` itself, and records events (dispatched actions and
  handler invocations) in order.
-/

namespace Sparrownet

/-- One e-mail record of `chapter1.mails` (`src/game/chapter1.js`). -/
structure Mail where
  «from» : String
  «to» : String
  sent : String
  body : String

/-- The mutable mailbox data closed over by the `mailbox` builder:
an unread queue and a read list. -/
structure Mails where
  unread : List Mail
  read : List Mail

mutual
/-- A call a command handler makes on its bound execution context
(`this.sendToOutput` / `this.pushShell` / `this.popShell` in
`src/game/common.js`). -/
inductive EngineCall where
  | sendToOutput (value : String)
  | pushShell (commands : List (String × CmdEntry)) (prompt : String)
  | popShell

/-- One command-table entry: `{ func, description }`.  A handler is
modelled as a pure function from the full input line to the list of
engine-capability calls it performs, in order. -/
inductive CmdEntry where
  | mk (func : String → List EngineCall) (description : String)
end

/-- A command table: mapping from command name to entry, in insertion
order (a JS object literal; keys unique). -/
abbrev CommandTable := List (String × CmdEntry)

/-- The handler of an entry. -/
def CmdEntry.func : CmdEntry → String → List EngineCall
  | .mk f _ => f

/-- The description of an entry. -/
def CmdEntry.description : CmdEntry → String
  | .mk _ d => d

/-- `availableCommands.hasOwnProperty(command)` /
`availableCommands[command]` on the object modelled as an ordered
association list. -/
def lookupEntry (table : CommandTable) (command : String) : Option CmdEntry :=
  match table with
  | [] => none
  | (name, entry) :: rest =>
      if name = command then some entry else lookupEntry rest command

/-- A saved shell frame `{ commands, prompt }` (the object pushed onto
`shellStack` by the `PUSH_SHELL` case of the reducer). -/
structure ShellFrame where
  commands : CommandTable
  prompt : String

/-- The terminal reducer's state
`{ prompt, shellStack, output, input, inputDisabled, availableCommands }`. -/
structure TerminalState where
  prompt : String
  shellStack : List ShellFrame
  output : List String
  input : String
  inputDisabled : Bool
  availableCommands : CommandTable

/-- The reducer's default state
`{ prompt: '> ', shellStack: [], output: [], input: '', inputDisabled: false, availableCommands: []}`. -/
def initialTerminalState : TerminalState :=
  { prompt := "> ", shellStack := [], output := [], input := "",
    inputDisabled := false, availableCommands := [] }

/-- The five action kinds the terminal reducer handles. -/
inductive Action where
  | inputEntered (value : String)
  | addOutput (value : String) (returnInput : Bool)
  | returnInput
  | pushShell (commands : CommandTable) (prompt : String)
  | popShell

/-- The terminal reducer (`PUSH_SHELL`/`POP_SHELL` version of
`terminal`).  `none` models the JS `TypeError` thrown by the
`POP_SHELL` case when `shellStack` is empty
(`state.shellStack[state.shellStack.length - 1].commands` reads a
property of `undefined`); every other case is total. -/
def terminal (state : TerminalState) (action : Action) : Option TerminalState :=
  match action with
  | .inputEntered value =>
      some { state with
        output := state.output ++ [state.prompt ++ value],
        inputDisabled := true }
  | .addOutput value returnInput =>
      some { state with
        output := state.output ++ [value],
        inputDisabled := !returnInput }
  | .returnInput =>
      some { state with inputDisabled := false }
  | .pushShell commands prompt =>
      some { state with
        shellStack := state.shellStack ++
          [{ commands := state.availableCommands, prompt := state.prompt }],
        availableCommands := commands,
        prompt := prompt,
        inputDisabled := false }
  | .popShell =>
      match state.shellStack.getLast? with
      | none => none
      | some frame =>
          some { state with
            availableCommands := frame.commands,
            prompt := frame.prompt,
            shellStack := state.shellStack.dropLast,
            inputDisabled := false }

/-- Dispatch a list of actions in order against the store
(`store.dispatch` applies the reducer); a crash aborts the run. -/
def dispatchActs (s : TerminalState) : List Action → Option TerminalState
  | [] => some s
  | a :: rest =>
      match terminal s a with
      | none => none
      | some s' => dispatchActs s' rest

namespace terminalActions

/-- Action creator `inputEntered(value)`. -/
def inputEntered (value : String) : Action := .inputEntered value

/-- Action creator `sendToOutput(value, returnInput)`:
`returnInput: returnInput === undefined ? true : false`
(`none` models the `undefined` argument of a one-argument call). -/
def sendToOutput (value : String) (returnInput : Option Bool) : Action :=
  .addOutput value (match returnInput with | none => true | some _ => false)

/-- Action creator `returnInput()`. -/
def returnInput : Action := .returnInput

/-- Action creator `pushShell(commands, prompt)`. -/
def pushShell (commands : CommandTable) (prompt : String) : Action :=
  .pushShell commands prompt

/-- Action creator `popShell()`. -/
def popShell : Action := .popShell

end terminalActions

/-- JS `String.prototype.split` with the single-character separator `' '`,
on the character list of the string.  `split` always returns a non-empty
array: `'' → ['']`, `'a b' → ['a','b']`, `'a ' → ['a','']`. -/
def splitChars : List Char → List (List Char)
  | [] => [[]]
  | c :: rest =>
      if c = ' ' then [] :: splitChars rest
      else
        match splitChars rest with
        | [] => [[c]]
        | group :: groups => (c :: group) :: groups

/-- `s.split(' ')` on Lean strings. -/
def splitSpace (s : String) : List String :=
  (splitChars s.data).map String.mk

/-- `fullCommand.split(' ')[0]`: the command token of an input line. -/
def firstToken (fullCommand : String) : String :=
  (splitSpace fullCommand).headD ""

/-- An observable event of an engine run: a store dispatch, or the
invocation of a command handler from the table. -/
inductive Event where
  | dispatched (a : Action)
  | handlerInvoked (command : String)

namespace commandEngine

/-- Engine method `sendToOutput(value, disable=true)`: the second
parameter is accepted but never used — the body dispatches
`sendToOutput(value)` with the action creator's second argument
`undefined`.  The embedding returns the dispatched action. -/
def sendToOutput (value : String) (disable : Bool) : Action :=
  terminalActions.sendToOutput value none

/-- Engine method `pushShell(commands, prompt)`. -/
def pushShell (commands : CommandTable) (prompt : String) : Action :=
  terminalActions.pushShell commands prompt

/-- Engine method `popShell()`. -/
def popShell : Action :=
  terminalActions.popShell

/-- `showHelp(availableCommands)`: one `sendToOutput` dispatch for the
header, then one per command of the table, in table (insertion) order;
the command name is padded with 18 spaces and sliced to 12 characters.
Returned as the list of dispatched actions, in dispatch order. -/
def showHelp (availableCommands : CommandTable) : List Action :=
  sendToOutput "action       | Description\r\n--------------------" true ::
    availableCommands.map (fun entry =>
      sendToOutput
        (String.mk ((entry.1 ++ "                  ").data.take 12) ++ "| " ++
          entry.2.description) true)

/-- The action a handler's engine-capability call dispatches
(`this` is bound to `commandEngine` at dispatch time). -/
def callAction : EngineCall → Action
  | .sendToOutput value => sendToOutput value true
  | .pushShell commands prompt => pushShell commands prompt
  | .popShell => popShell

/-- `runCommand(fullCommand)`: dispatches `inputEntered(fullCommand)`,
then branches on the first token — empty → `returnInput()`;
`"help"` → `showHelp` over the active table; a key of the active table →
the handler runs (synchronously: `setTimeout` receives the handler's
return value because the handler call is in its argument expression)
with `this` bound to the engine; otherwise →
`sendToOutput("bad command")`.  Returns the resulting state and the
ordered event trace; `none` is a crash. -/
def runCommand (s : TerminalState) (fullCommand : String) :
    Option (TerminalState × List Event) :=
  let command := firstToken fullCommand
  match terminal s (terminalActions.inputEntered fullCommand) with
  | none => none
  | some s1 =>
      let availableCommands := s1.availableCommands
      if command = "" then
        match terminal s1 terminalActions.returnInput with
        | none => none
        | some s2 =>
            some (s2, [.dispatched (terminalActions.inputEntered fullCommand),
                       .dispatched terminalActions.returnInput])
      else if command = "help" then
        let acts := showHelp availableCommands
        match dispatchActs s1 acts with
        | none => none
        | some s2 =>
            some (s2, .dispatched (terminalActions.inputEntered fullCommand) ::
                      acts.map .dispatched)
      else
        match lookupEntry availableCommands command with
        | some entry =>
            let acts := (entry.func fullCommand).map callAction
            match dispatchActs s1 acts with
            | none => none
            | some s2 =>
                some (s2, .dispatched (terminalActions.inputEntered fullCommand) ::
                          .handlerInvoked command ::
                          acts.map .dispatched)
        | none =>
            match terminal s1 (sendToOutput "bad command" true) with
            | none => none
            | some s2 =>
                some (s2, [.dispatched (terminalActions.inputEntered fullCommand),
                           .dispatched (sendToOutput "bad command" true)])

end commandEngine

/-- A chapter object: `{ rootCommands, initialOutput, mails }`
(`src/game/chapter1.js`). -/
structure Chapter where
  rootCommands : CommandTable
  initialOutput : String
  mails : Mails

/-- Engine method `start(initialState)`: dispatches
`pushShell(initialState.rootCommands, '> ')` then
`sendToOutput(initialState.initialOutput)`. -/
def commandEngine.start (s : TerminalState) (initialState : Chapter) :
    Option TerminalState :=
  dispatchActs s
    [terminalActions.pushShell initialState.rootCommands "> ",
     terminalActions.sendToOutput initialState.initialOutput none]

/-- Modelled from the `pluralize` npm library (not part of this
repository): `pluralize(word, count)` returns the singular for count 1
and the regular plural otherwise; `'e-mail'` pluralizes to `'e-mails'`. -/
def pluralize (word : String) (count : Nat) : String :=
  if count = 1 then word else word ++ "s"

/-- The `next` handler of the mailbox sub-shell (`src/game/common.js`):
the closure's mutation of `mails` is modelled by returning the updated
`Mails` alongside the engine calls it performs. -/
def mailboxNextFunc (mails : Mails) : Mails × List EngineCall :=
  if mails.unread.length = 0 then
    (mails, [.sendToOutput "there are no more unread e-mails"])
  else
    match mails.unread with
    | [] => (mails, [])
    | currentMail :: restUnread =>
        let delimiter := "------------------------\r\n"
        ({ unread := restUnread, read := mails.read ++ [currentMail] },
         [.sendToOutput (delimiter ++ "from: " ++ currentMail.«from» ++
            "\r\n" ++ delimiter ++ "\r\nsent at: " ++ currentMail.sent ++
            "\r\n" ++ delimiter ++ "\r\nbody: " ++ currentMail.body)])

/-- The sub-shell command table pushed by the mailbox handler, for the
`mails` value the builder's closure holds at dispatch time. -/
def mailboxSubCommands (mails : Mails) : CommandTable :=
  [("next", .mk (fun _ => (mailboxNextFunc mails).2) "read next unread mail"),
   ("quit", .mk (fun _ => [.popShell]) "quit the mailbox")]

/-- The top-level mailbox handler body (`src/game/common.js`): splits the
input line, shifts off the command token; with no remaining arguments it
reports the unread count and pushes the sub-shell; with arguments it
performs no engine call at all. -/
def mailboxFunc (mails : Mails) (command : String) : List EngineCall :=
  let unreadMailCount := mails.unread.length
  let args := (splitSpace command).drop 1
  if args.length = 0 then
    [.sendToOutput ("You have " ++ toString unreadMailCount ++ " unread " ++
       pluralize "e-mail" unreadMailCount ++ " in your mailbox"),
     .pushShell (mailboxSubCommands mails) "mailbox > "]
  else []

/-- `mailbox(mails)`: the builder's top-level command entry. -/
def mailbox (mails : Mails) : CmdEntry :=
  .mk (mailboxFunc mails) "opens the mailbox"

/-- The first unread chapter-1 mail. -/
def chapter1Mail1 : Mail :=
  { «from» := "Elda Vice", «to» := "Taylor Fen", sent := "3 days ago",
    body := "Hi Taylor \n How are you? \n I've been worried lately, you haven't sent in your daily report for 3 days now, are you ok?" }

/-- The second unread chapter-1 mail. -/
def chapter1Mail2 : Mail :=
  { «from» := "Elda Vice", «to» := "Taylor Fen", sent := "Yesterday",
    body := "Taylor - please send me a mail once you get this, I need to tell you something important" }

/-- `chapter1.mails` (`src/game/chapter1.js`). -/
def chapter1Mails : Mails :=
  { unread := [chapter1Mail1, chapter1Mail2], read := [] }

/-- `chapter1` with `rootCommands.mailbox = mailbox(chapter1.mails)`. -/
def chapter1 : Chapter :=
  { rootCommands := [("mailbox", mailbox chapter1Mails)],
    initialOutput := "Welcome to sparrownet terminal (v2.14.1)\nImportant*: Your system is not up-to-date. Please speak with your system adminstrator.",
    mails := chapter1Mails }

/-- The terminal state after `commandEngine.start(chapter1)` on the
reducer's default state (the state the app boots into). -/
def chapter1Started : TerminalState :=
  (commandEngine.start initialTerminalState chapter1).getD initialTerminalState

/-- The terminal state after typing `mailbox` in the booted chapter-1
terminal (the mailbox sub-shell is active). -/
def mailboxState : TerminalState :=
  ((commandEngine.runCommand chapter1Started "mailbox").map Prod.fst).getD
    initialTerminalState

/-- A user-defined `help` entry, used to exercise the shadowing of a
table's own `help` key by the engine's built-in branch. -/
def helpOverrideEntry : CmdEntry :=
  .mk (fun _ => [.sendToOutput "user-defined help ran"]) "a shadowed help command"

/-- A state whose active table itself contains a `help` key. -/
def helpOverrideState : TerminalState :=
  { initialTerminalState with
    availableCommands := [("help", helpOverrideEntry)] }

/-- Is this action a `PushShell` or a `PopShell`? -/
def isPushPop : Action → Bool
  | .pushShell _ _ => true
  | .popShell => true
  | _ => false

/-- Number of `PushShell` actions in a sequence. -/
def pushes (acts : List Action) : Nat :=
  acts.countP fun a => match a with | .pushShell _ _ => true | _ => false

/-- Number of `PopShell` actions in a sequence. -/
def pops (acts : List Action) : Nat :=
  acts.countP fun a => match a with | .popShell => true | _ => false

/-- Dyck check: the sequence consists of `PushShell`/`PopShell` only, no
prefix has more pops than `d` plus its pushes, and the net depth change
is exactly `-d`. -/
def balancedFrom : List Action → Nat → Bool
  | [], d => d == 0
  | .pushShell _ _ :: rest, d => balancedFrom rest (d + 1)
  | .popShell :: rest, d + 1 => balancedFrom rest d
  | .popShell :: _, 0 => false
  | .inputEntered _ :: _, _ => false
  | .addOutput _ _ :: _, _ => false
  | .returnInput :: _, _ => false

/-- The conceptual full shell stack of a state: the saved frames plus
the active `(availableCommands, prompt)` pair on top. -/
def Fstack (s : TerminalState) : List ShellFrame :=
  s.shellStack ++ [{ commands := s.availableCommands, prompt := s.prompt }]

/-- The lines `showHelp` prints: the header, then one line per table
entry. -/
def helpLines (availableCommands : CommandTable) : List String :=
  "action       | Description\r\n--------------------" ::
    availableCommands.map (fun entry =>
      String.mk ((entry.1 ++ "                  ").data.take 12) ++ "| " ++
        entry.2.description)

/-- A concrete balanced push/pop sequence used to instantiate the stack
symmetry law. -/
def balancedDemoActs : List Action :=
  [Action.pushShell (mailboxSubCommands chapter1Mails) "mailbox > ",
   Action.pushShell [] "inner > ",
   Action.popShell,
   Action.popShell]

/-- Claim C1.  The claim states that popping with an empty `shellStack`
is a no-op returning the unchanged state with input enabled.  The code
instead reads `state.shellStack[-1].commands` of `undefined` and
throws: on the reducer's default state (whose `shellStack` is empty)
the `POP_SHELL` transition crashes (`none`) rather than returning the
state unchanged. -/
theorem popShell_empty_stack_crashes :
    initialTerminalState.shellStack = [] ∧
    terminal initialTerminalState terminalActions.popShell = none :=
  ⟨rfl, rfl⟩

/-- Claim C3.  Every successful reducer transition only appends to
`output`: the new `output` is the old one followed by some suffix, so
no previously appended entry is removed or reordered. -/
theorem reducer_output_append_only (s : TerminalState) (a : Action)
    (s' : TerminalState) (h : terminal s a = some s') :
    ∃ t, s'.output = s.output ++ t := by
  cases a with
  | inputEntered value =>
      simp only [terminal, Option.some.injEq] at h
      exact ⟨[s.prompt ++ value], by rw [← h]⟩
  | addOutput value returnInput =>
      simp only [terminal, Option.some.injEq] at h
      exact ⟨[value], by rw [← h]⟩
  | returnInput =>
      simp only [terminal, Option.some.injEq] at h
      exact ⟨[], by rw [← h]; simp⟩
  | pushShell commands prompt =>
      simp only [terminal, Option.some.injEq] at h
      exact ⟨[], by rw [← h]; simp⟩
  | popShell =>
      simp only [terminal] at h
      cases hg : s.shellStack.getLast? with
      | none => rw [hg] at h; exact absurd h (by simp)
      | some fr =>
          rw [hg] at h
          simp only [Option.some.injEq] at h
          exact ⟨[], by rw [← h]; simp⟩

/-- Claim C3 witness: the append-only law at the `ReturnInput`
transition on the default state. -/
theorem reducer_output_append_only_witness :
    terminal initialTerminalState terminalActions.returnInput =
      some { initialTerminalState with inputDisabled := false } ∧
    ∃ t, ({ initialTerminalState with inputDisabled := false} :
        TerminalState).output = initialTerminalState.output ++ t :=
  ⟨rfl, reducer_output_append_only initialTerminalState
    terminalActions.returnInput _ rfl⟩

/-- Claim C4.  The claim states the engine wrapper
`sendToOutput(value, returnInput = true)` yields
`inputDisabled = !returnInput`.  In the code the wrapper's second
parameter (named `disable`) is never forwarded, so the dispatched
action always carries `returnInput = true` and the resulting state
always has `inputDisabled = false` — in particular for the flag
`false`, where the claim demands `true`.  Moreover the action creator
itself maps any explicitly passed flag (even `true`) to
`returnInput: false`, so calling it with `true` directly would disable
input. -/
theorem engine_sendToOutput_flag_ignored :
    terminal chapter1Started (commandEngine.sendToOutput "x" false) =
      some { chapter1Started with
        output := chapter1Started.output ++ ["x"], inputDisabled := false } ∧
    terminal chapter1Started (terminalActions.sendToOutput "x" (some true)) =
      some { chapter1Started with
        output := chapter1Started.output ++ ["x"], inputDisabled := true } :=
  ⟨rfl, rfl⟩

/-- Claim C5.  An input line whose first token is non-empty, not
`help`, and not a key of the active table yields exactly the echoed
line plus one `bad command` entry, re-enables input, and leaves
`shellStack`, `availableCommands` and `prompt` untouched (the
resulting state differs from `s` only in `output` and
`inputDisabled`). -/
theorem runCommand_unknown_command (s : TerminalState) (line : String)
    (h1 : ¬ firstToken line = "")
    (h2 : ¬ firstToken line = "help")
    (h3 : lookupEntry s.availableCommands (firstToken line) = none) :
    commandEngine.runCommand s line =
      some ({ s with
          output := (s.output ++ [s.prompt ++ line]) ++ ["bad command"],
          inputDisabled := false },
        [Event.dispatched (terminalActions.inputEntered line),
         Event.dispatched (commandEngine.sendToOutput "bad command" true)]) := by
  have hac : ({ s with output := s.output ++ [s.prompt ++ line],
                       inputDisabled := true } : TerminalState).availableCommands =
      s.availableCommands := rfl
  unfold commandEngine.runCommand
  simp only [terminalActions.inputEntered, terminalActions.sendToOutput,
    commandEngine.sendToOutput, terminal]
  rw [if_neg h1, if_neg h2, hac, h3]
  rfl

/-- Claim C5 witness: the unknown command `xyz` at the chapter-1 root
table. -/
theorem runCommand_unknown_command_witness :
    (¬ firstToken "xyz" = "" ∧ ¬ firstToken "xyz" = "help" ∧
      lookupEntry chapter1Started.availableCommands (firstToken "xyz") = none) ∧
    commandEngine.runCommand chapter1Started "xyz" =
      some ({ chapter1Started with
          output := (chapter1Started.output ++
            [chapter1Started.prompt ++ "xyz"]) ++ ["bad command"],
          inputDisabled := false },
        [Event.dispatched (terminalActions.inputEntered "xyz"),
         Event.dispatched (commandEngine.sendToOutput "bad command" true)]) :=
  ⟨⟨by decide, by decide, rfl⟩,
    runCommand_unknown_command chapter1Started "xyz" (by decide) (by decide) rfl⟩

/-- Claim C6.  The claim states a matched handler is deferred by one
event-loop tick and runs only after `runCommand` returns.  In the code
`setTimeout((availableCommands[command].func.bind(commandEngine))(fullCommand), 1)`
calls the handler in the argument expression, so the handler runs
synchronously inside `runCommand`: on the booted chapter-1 state,
`runCommand("mailbox")` itself already returns the state containing the
handler's output and pushed shell, and its own event trace contains the
handler invocation and the handler's dispatches. -/
theorem runCommand_handler_runs_synchronously :
    (commandEngine.runCommand chapter1Started "mailbox").map
        (fun r => (r.1.output, r.1.prompt, r.1.inputDisabled, r.2)) =
      some ([chapter1.initialOutput, "> mailbox",
             "You have 2 unread e-mails in your mailbox"],
            "mailbox > ", false,
            [Event.dispatched (terminalActions.inputEntered "mailbox"),
             Event.handlerInvoked "mailbox",
             Event.dispatched
               (Action.addOutput "You have 2 unread e-mails in your mailbox" true),
             Event.dispatched
               (Action.pushShell (mailboxSubCommands chapter1Mails) "mailbox > ")]) :=
  rfl

/-- Claim C9.  The mailbox handler invoked with an extra argument
(`mailbox x`) performs no engine call: after `runCommand` (which runs
the handler) the only new output entry is the echoed line,
`inputDisabled` is still `true` as `InputEntered` set it, and the
complete event trace shows no further dispatch that could re-enable
input. -/
theorem runCommand_mailbox_arg_blocks_input :
    (commandEngine.runCommand chapter1Started "mailbox x").map
        (fun r => (r.1.output, r.1.inputDisabled, r.2)) =
      some ([chapter1.initialOutput, "> mailbox x"], true,
        [Event.dispatched (terminalActions.inputEntered "mailbox x"),
         Event.handlerInvoked "mailbox"]) :=
  rfl

theorem showHelp_eq_map (tbl : CommandTable) :
    commandEngine.showHelp tbl =
      (helpLines tbl).map (fun v => Action.addOutput v true) := by
  simp only [commandEngine.showHelp, helpLines, commandEngine.sendToOutput,
    terminalActions.sendToOutput, List.map_cons, List.map_map]
  rfl

theorem dispatchActs_addOutputs (s : TerminalState) (v : String)
    (values : List String) :
    dispatchActs s ((v :: values).map (fun w => Action.addOutput w true)) =
      some { s with output := s.output ++ (v :: values), inputDisabled := false } := by
  induction values generalizing s v with
  | nil => rfl
  | cons w ws ih =>
      rw [List.map_cons]
      have h1 : dispatchActs s (Action.addOutput v true ::
            List.map (fun x => Action.addOutput x true) (w :: ws)) =
          dispatchActs { s with output := s.output ++ [v], inputDisabled := false }
            (List.map (fun x => Action.addOutput x true) (w :: ws)) := rfl
      rw [h1, ih]
      simp [List.append_assoc]

theorem runCommand_help_run (s : TerminalState) :
    commandEngine.runCommand s "help" =
      some ({ s with
          output := (s.output ++ [s.prompt ++ "help"]) ++ helpLines s.availableCommands,
          inputDisabled := false },
        Event.dispatched (terminalActions.inputEntered "help") ::
          (commandEngine.showHelp s.availableCommands).map Event.dispatched) := by
  have hac : ({ s with output := s.output ++ [s.prompt ++ "help"],
                       inputDisabled := true } : TerminalState).availableCommands =
      s.availableCommands := rfl
  have hdisp := dispatchActs_addOutputs
    (s := { s with output := s.output ++ [s.prompt ++ "help"], inputDisabled := true })
    "action       | Description\r\n--------------------"
    (s.availableCommands.map (fun entry =>
      String.mk ((entry.1 ++ "                  ").data.take 12) ++ "| " ++
        entry.2.description))
  unfold commandEngine.runCommand
  simp only [terminalActions.inputEntered, terminal]
  rw [if_neg (show ¬ firstToken "help" = "" by decide),
    if_pos (show firstToken "help" = "help" from rfl), hac, showHelp_eq_map]
  have hlines : helpLines s.availableCommands =
      "action       | Description\r\n--------------------" ::
        s.availableCommands.map (fun entry =>
          String.mk ((entry.1 ++ "                  ").data.take 12) ++ "| " ++
            entry.2.description) := rfl
  rw [← hlines] at hdisp
  rw [hdisp]

/-- Claim C7 counterexample.  The claim states the help listing is
emitted as one `AddOutput`; in the mailbox sub-shell (a table of two
commands) `runCommand("help")` dispatches three `AddOutput` actions
(a header plus one per command), not one. -/
theorem help_not_one_addOutput :
    ((commandEngine.runCommand mailboxState "help").map
      (fun r => r.2.countP (fun e => match e with
        | .dispatched (.addOutput _ _) => true
        | _ => false))) = some 3 ∧ (3 : Nat) ≠ 1 :=
  ⟨rfl, by decide⟩

/-- Claim C7 (amended).  `runCommand("help")` enumerates the active
table only: beyond the echoed line it appends the header line plus one
line per entry of `availableCommands`, each pairing the entry's name
(padded with spaces and truncated to 12 characters) with its declared
description, in table order — every key exactly once and nothing from
frames saved in `shellStack` — and re-enables input; the listing is
emitted as one `AddOutput` per line, not as a single one. -/
theorem runCommand_help_listing (s : TerminalState) :
    commandEngine.runCommand s "help" =
      some ({ s with
          output := (s.output ++ [s.prompt ++ "help"]) ++ helpLines s.availableCommands,
          inputDisabled := false },
        Event.dispatched (terminalActions.inputEntered "help") ::
          (commandEngine.showHelp s.availableCommands).map Event.dispatched) ∧
    helpLines s.availableCommands =
      "action       | Description\r\n--------------------" ::
        s.availableCommands.map (fun entry =>
          String.mk ((entry.1 ++ "                  ").data.take 12) ++ "| " ++
            entry.2.description) ∧
    (commandEngine.showHelp s.availableCommands).length =
      s.availableCommands.length + 1 := by
  refine ⟨runCommand_help_run s, rfl, ?_⟩
  rw [showHelp_eq_map]
  simp [helpLines]

/-- Claim C10.  When the active table itself contains a `help` key, the
engine's built-in branch still runs: the trace of `runCommand("help")`
is the echo followed by the built-in listing's dispatches, and contains
no handler invocation at all — the table's own `help` handler never
runs. -/
theorem builtin_help_shadows_table_help (s : TerminalState) (entry : CmdEntry)
    (h : lookupEntry s.availableCommands "help" = some entry) :
    (commandEngine.runCommand s "help").map (fun r => r.2) =
      some (Event.dispatched (terminalActions.inputEntered "help") ::
        (commandEngine.showHelp s.availableCommands).map Event.dispatched) ∧
    ∀ events, (commandEngine.runCommand s "help").map (fun r => r.2) = some events →
      ∀ c, Event.handlerInvoked c ∉ events := by
  rw [runCommand_help_run]
  refine ⟨rfl, ?_⟩
  intro events hev c
  have hev' : Event.dispatched (terminalActions.inputEntered "help") ::
      (commandEngine.showHelp s.availableCommands).map Event.dispatched = events := by
    simpa using hev
  subst hev'
  simp only [List.mem_cons, List.mem_map]
  rintro (hhd | ⟨a, _, hha⟩)
  · exact Event.noConfusion hhd
  · exact Event.noConfusion hha

/-- Claim C10 witness: a table whose `help` key holds a user-defined
handler. -/
theorem builtin_help_shadows_table_help_witness :
    lookupEntry helpOverrideState.availableCommands "help" = some helpOverrideEntry ∧
    ((commandEngine.runCommand helpOverrideState "help").map (fun r => r.2) =
      some (Event.dispatched (terminalActions.inputEntered "help") ::
        (commandEngine.showHelp helpOverrideState.availableCommands).map
          Event.dispatched) ∧
     ∀ events, (commandEngine.runCommand helpOverrideState "help").map
         (fun r => r.2) = some events →
       ∀ c, Event.handlerInvoked c ∉ events) :=
  ⟨rfl, builtin_help_shadows_table_help helpOverrideState helpOverrideEntry rfl⟩

/-- Claim C8.  The mailbox `next` handler: with no unread mail it only
reports that fact and leaves both lists unchanged; with unread mail it
dequeues exactly the first unread item, appends it at the end of the
read list, and outputs it in the fixed delimiter-bordered format
showing sender, timestamp and body. -/
theorem mailbox_next_spec (m : Mails) :
    (m.unread = [] →
      mailboxNextFunc m =
        (m, [EngineCall.sendToOutput "there are no more unread e-mails"])) ∧
    (∀ x rest, m.unread = x :: rest →
      (mailboxNextFunc m).1.unread = rest ∧
      (mailboxNextFunc m).1.read = m.read ++ [x] ∧
      (mailboxNextFunc m).2 =
        [EngineCall.sendToOutput
          ("------------------------\r\n" ++ "from: " ++ x.«from» ++ "\r\n" ++
           "------------------------\r\n" ++ "\r\nsent at: " ++ x.sent ++ "\r\n" ++
           "------------------------\r\n" ++ "\r\nbody: " ++ x.body)]) := by
  constructor
  · intro h
    simp [mailboxNextFunc, h]
  · intro x rest h
    simp [mailboxNextFunc, h]

/-- Claim C8 witness: the chapter-1 mailbox with its two unread mails;
`next` dequeues the first one. -/
theorem mailbox_next_spec_witness :
    chapter1Mails.unread = chapter1Mail1 :: [chapter1Mail2] ∧
    ((mailboxNextFunc chapter1Mails).1.unread = [chapter1Mail2] ∧
     (mailboxNextFunc chapter1Mails).1.read = chapter1Mails.read ++ [chapter1Mail1] ∧
     (mailboxNextFunc chapter1Mails).2 =
       [EngineCall.sendToOutput
         ("------------------------\r\n" ++ "from: " ++ chapter1Mail1.«from» ++
          "\r\n" ++ "------------------------\r\n" ++ "\r\nsent at: " ++
          chapter1Mail1.sent ++ "\r\n" ++ "------------------------\r\n" ++
          "\r\nbody: " ++ chapter1Mail1.body)]) :=
  ⟨rfl, (mailbox_next_spec chapter1Mails).2 chapter1Mail1 [chapter1Mail2] rfl⟩

theorem pushes_nil : pushes [] = 0 := rfl

theorem pops_nil : pops [] = 0 := rfl

theorem pushes_cons_push (c : CommandTable) (p : String) (l : List Action) :
    pushes (Action.pushShell c p :: l) = pushes l + 1 := by
  simp [pushes, List.countP_cons]

theorem pushes_cons_pop (l : List Action) :
    pushes (Action.popShell :: l) = pushes l := by
  simp [pushes, List.countP_cons]

theorem pops_cons_push (c : CommandTable) (p : String) (l : List Action) :
    pops (Action.pushShell c p :: l) = pops l := by
  simp [pops, List.countP_cons]

theorem pops_cons_pop (l : List Action) :
    pops (Action.popShell :: l) = pops l + 1 := by
  simp [pops, List.countP_cons]

theorem balancedFrom_of_counts (acts : List Action) :
    ∀ d : Nat, (∀ a ∈ acts, isPushPop a = true) →
      (∀ n, pops (acts.take n) ≤ pushes (acts.take n) + d) →
      pushes acts + d = pops acts →
      balancedFrom acts d = true := by
  induction acts with
  | nil =>
      intro d _ _ htotal
      rw [pushes_nil, pops_nil] at htotal
      have hd : d = 0 := by omega
      subst hd
      rfl
  | cons a rest ih =>
      intro d hkinds hpre htotal
      cases a with
      | pushShell c p =>
          simp only [balancedFrom]
          refine ih (d + 1) (fun x hx => hkinds x (List.mem_cons_of_mem _ hx)) ?_ ?_
          · intro n
            have h := hpre (n + 1)
            rw [List.take_succ_cons, pushes_cons_push, pops_cons_push] at h
            omega
          · rw [pushes_cons_push, pops_cons_push] at htotal
            omega
      | popShell =>
          have h1 := hpre (0 + 1)
          rw [List.take_succ_cons, List.take_zero, pushes_cons_pop,
            pops_cons_pop, pushes_nil, pops_nil] at h1
          cases d with
          | zero => omega
          | succ e =>
              simp only [balancedFrom]
              refine ih e (fun x hx => hkinds x (List.mem_cons_of_mem _ hx)) ?_ ?_
              · intro n
                have h := hpre (n + 1)
                rw [List.take_succ_cons, pushes_cons_pop, pops_cons_pop] at h
                omega
              · rw [pushes_cons_pop, pops_cons_pop] at htotal
                omega
      | inputEntered v =>
          have h := hkinds _ (List.mem_cons_self _ _)
          simp [isPushPop] at h
      | addOutput v b =>
          have h := hkinds _ (List.mem_cons_self _ _)
          simp [isPushPop] at h
      | returnInput =>
          have h := hkinds _ (List.mem_cons_self _ _)
          simp [isPushPop] at h

theorem dispatchActs_balanced (acts : List Action) :
    ∀ (extra : List ShellFrame) (s : TerminalState) (F0 : List ShellFrame),
      F0 ≠ [] → balancedFrom acts extra.length = true → Fstack s = F0 ++ extra →
      ∃ s', dispatchActs s acts = some s' ∧ Fstack s' = F0 := by
  induction acts with
  | nil =>
      intro extra s F0 _ hbal hF
      have hlen : extra.length = 0 := by
        simpa [balancedFrom] using hbal
      have hex : extra = [] := List.length_eq_zero.mp hlen
      subst hex
      exact ⟨s, rfl, by simpa using hF⟩
  | cons a rest ih =>
      intro extra s F0 hF0 hbal hF
      cases a with
      | pushShell c p =>
          simp only [balancedFrom] at hbal
          obtain ⟨s', hrun, hFs'⟩ := ih (extra ++ [⟨c, p⟩])
            { s with
              shellStack := s.shellStack ++
                [{ commands := s.availableCommands, prompt := s.prompt }],
              availableCommands := c, prompt := p, inputDisabled := false }
            F0 hF0 (by simpa using hbal)
            (by simp only [Fstack] at hF ⊢
                rw [hF, List.append_assoc])
          exact ⟨s', hrun, hFs'⟩
      | popShell =>
          cases extra with
          | nil => simp [balancedFrom] at hbal
          | cons e es =>
              have hbal' : balancedFrom rest es.length = true := by
                simpa [balancedFrom] using hbal
              have hlenF : s.shellStack.length + 1 = F0.length + (es.length + 1) := by
                have hl := congrArg List.length hF
                simpa [Fstack] using hl
              have hne : s.shellStack ≠ [] := by
                intro hcon
                rw [hcon] at hlenF
                have hF0len : F0.length ≠ 0 :=
                  fun h0 => hF0 (List.length_eq_zero.mp h0)
                simp at hlenF
                omega
              obtain ⟨fr, hfr⟩ : ∃ fr, s.shellStack.getLast? = some fr :=
                Option.isSome_iff_exists.mp (List.getLast?_isSome.mpr hne)
              have hstep : terminal s Action.popShell =
                  some { s with availableCommands := fr.commands, prompt := fr.prompt,
                                shellStack := s.shellStack.dropLast,
                                inputDisabled := false } := by
                simp [terminal, hfr]
              have hFpop : Fstack
                  { s with
                    availableCommands := fr.commands,
                    prompt := fr.prompt, shellStack := s.shellStack.dropLast,
                    inputDisabled := false } = F0 ++ (e :: es).dropLast := by
                have hdrop : s.shellStack.dropLast ++ [fr] = s.shellStack :=
                  List.dropLast_append_getLast? fr (by rw [hfr]; rfl)
                have hFdrop : s.shellStack = F0 ++ (e :: es).dropLast := by
                  have hdl := congrArg List.dropLast hF
                  rw [Fstack, List.dropLast_concat,
                    List.dropLast_append_of_ne_nil F0 (List.cons_ne_nil e es)] at hdl
                  exact hdl
                show s.shellStack.dropLast ++ [fr] = F0 ++ (e :: es).dropLast
                rw [hdrop, hFdrop]
              obtain ⟨s', hrun, hFs'⟩ := ih (e :: es).dropLast
                { s with availableCommands := fr.commands, prompt := fr.prompt,
                         shellStack := s.shellStack.dropLast, inputDisabled := false }
                F0 hF0
                (by simpa [List.length_dropLast] using hbal') hFpop
              refine ⟨s', ?_, hFs'⟩
              show (match terminal s Action.popShell with
                    | none => none
                    | some s1 => dispatchActs s1 rest) = some s'
              rw [hstep]
              exact hrun
      | inputEntered v => simp [balancedFrom] at hbal
      | addOutput v b => simp [balancedFrom] at hbal
      | returnInput => simp [balancedFrom] at hbal

/-- Claim C2.  Stack symmetry: for every starting state and every
balanced sequence of `PushShell`/`PopShell` actions (equal numbers of
pushes and pops, no prefix with more pops than pushes), dispatching the
sequence succeeds and the resulting `availableCommands` and `prompt`
equal the values active before the first push. -/
theorem balanced_push_pop_restores (s : TerminalState) (acts : List Action)
    (hkinds : ∀ a ∈ acts, isPushPop a = true)
    (htotal : pushes acts = pops acts)
    (hpre : ∀ n, pops (acts.take n) ≤ pushes (acts.take n)) :
    ∃ s', dispatchActs s acts = some s' ∧
      s'.availableCommands = s.availableCommands ∧ s'.prompt = s.prompt := by
  have hbal : balancedFrom acts 0 = true :=
    balancedFrom_of_counts acts 0 hkinds
      (fun n => by have := hpre n; omega) (by omega)
  obtain ⟨s', hrun, hFs⟩ := dispatchActs_balanced acts [] s (Fstack s)
    (by simp [Fstack]) (by simpa using hbal) (by simp)
  refine ⟨s', hrun, ?_, ?_⟩
  · have hlast := congrArg List.getLast? hFs
    rw [Fstack, List.getLast?_concat, Fstack, List.getLast?_concat] at hlast
    exact congrArg ShellFrame.commands (Option.some.inj hlast)
  · have hlast := congrArg List.getLast? hFs
    rw [Fstack, List.getLast?_concat, Fstack, List.getLast?_concat] at hlast
    exact congrArg ShellFrame.prompt (Option.some.inj hlast)

/-- Claim C2 witness: a concrete balanced push/push/pop/pop sequence on
the booted chapter-1 state restores the root table and prompt. -/
theorem balanced_push_pop_restores_witness :
    ((∀ a ∈ balancedDemoActs, isPushPop a = true) ∧
     pushes balancedDemoActs = pops balancedDemoActs ∧
     ∀ n, pops (balancedDemoActs.take n) ≤ pushes (balancedDemoActs.take n)) ∧
    ∃ s', dispatchActs chapter1Started balancedDemoActs = some s' ∧
      s'.availableCommands = chapter1Started.availableCommands ∧
      s'.prompt = chapter1Started.prompt := by
  have hpre : ∀ n, pops (balancedDemoActs.take n) ≤
      pushes (balancedDemoActs.take n) := by
    intro n
    match n with
    | 0 => decide
    | 1 => decide
    | 2 => decide
    | 3 => decide
    | (m + 4) =>
        rw [List.take_of_length_le (by simp [balancedDemoActs])]
        decide
  exact ⟨⟨by decide, by decide, hpre⟩,
    balanced_push_pop_restores chapter1Started balancedDemoActs
      (by decide) (by decide) hpre⟩

end Sparrownet
